import Mathlib

/-!
Shallow embedding of the `sale_opportunity` Tryton module
(`opportunity.py` and `sale.py`).

Modelling conventions:
* Records are Lean structures holding the fields the verified claims are
  about; Many2One references are modelled by `Option Nat` ids.
* `Decimal` amounts are modelled by `Rat` (decimal arithmetic is exact, so
  the rational model is faithful); dates are modelled by `Int` and the
  framework's `ir.date.today()` is an explicit `today` parameter.
* Tryton's `Workflow.transition(target)` decorator filters the records it
  receives, keeping only those whose `(record.state, target)` pair belongs
  to the model's declared `_transitions` set; the decorated body runs on the
  filtered records and the target state is then written to them.  This
  framework semantics is embedded in `workflowTransition`.
* A raised `user_error` aborts the transaction, so a fallible operation is
  an `Except`: the `error` case performs no update at all.
-/

/-- The `state` selection of `sale.opportunity` (the `STATES` list). -/
inductive OppState
  | lead
  | opportunity
  | converted
  | won
  | cancelled
  | lost
deriving DecidableEq

/-- The states of a `sale.sale` record in the host `sale` module. -/
inductive SaleState
  | draft
  | quotation
  | confirmed
  | processing
  | done
  | cancel
deriving DecidableEq

/-- The `sale_state` selection of `sale.opportunity`. -/
inductive OppSaleState
  | none
  | waiting
  | confirmed
  | done
  | cancelled
deriving DecidableEq

/-- A company; only its currency matters to the claims. -/
structure Company where
  currency : Nat
deriving DecidableEq

/-- A `sale.sale` record, restricted to the fields read or written by this
module (`_get_sale_opportunity`, `get_sale_state`, `set_won_amount`). -/
structure SaleRec where
  description : Option String
  party : Option Nat
  payment_term : Option Nat
  company : Company
  invoice_address : Option Nat
  shipment_address : Option Nat
  currency : Nat
  sale_date : Option Int
  state : SaleState
  total_amount : Rat
deriving DecidableEq

/-- A `sale.opportunity` record (the fields declared in `SaleOpportunity`;
`history` entries and `lines` are opaque ids, `sales` is the Many2Many
target list). -/
structure Opportunity where
  reference : Option String
  party : Option Nat
  address : Option Nat
  company : Company
  expected_amount : Option Rat
  won_amount : Option Rat
  payment_term : Option Nat
  employee : Nat
  start_date : Int
  end_date : Option Int
  description : Option String
  comment : Option String
  state : OppState
  probability : Int
  lost_reason : Option String
  sale_state : OppSaleState
  history : List Nat
  sales : List SaleRec
deriving DecidableEq

/-- A default opportunity record, used as the `List.getD` fallback. -/
def emptyOpp : Opportunity :=
  { reference := Option.none
    party := Option.none
    address := Option.none
    company := { currency := 0 }
    expected_amount := Option.none
    won_amount := Option.none
    payment_term := Option.none
    employee := 0
    start_date := 0
    end_date := Option.none
    description := Option.none
    comment := Option.none
    state := OppState.lead
    probability := 50
    lost_reason := Option.none
    sale_state := OppSaleState.none
    history := []
    sales := [] }

/-- The `_transitions` set declared in `SaleOpportunity.__setup__`. -/
def transitions : List (OppState × OppState) :=
  [ (OppState.lead, OppState.opportunity)
  , (OppState.lead, OppState.lost)
  , (OppState.lead, OppState.cancelled)
  , (OppState.opportunity, OppState.converted)
  , (OppState.opportunity, OppState.lead)
  , (OppState.opportunity, OppState.lost)
  , (OppState.opportunity, OppState.won)
  , (OppState.opportunity, OppState.cancelled)
  , (OppState.converted, OppState.converted)
  , (OppState.converted, OppState.won)
  , (OppState.converted, OppState.lost)
  , (OppState.won, OppState.opportunity)
  , (OppState.lost, OppState.lead)
  , (OppState.cancelled, OppState.lead) ]

/-- The pair `(source state, target state)` is a declared transition. -/
def allowed (s t : OppState) : Prop := (s, t) ∈ transitions

instance (s t : OppState) : Decidable (allowed s t) :=
  inferInstanceAs (Decidable ((s, t) ∈ transitions))

/-- Tryton's `Workflow.transition(target)` decorator semantics: records
whose current state does not admit the transition are silently skipped; on
the others the decorated body runs and the target state is then written. -/
def workflowTransition (target : OppState) (body : Opportunity → Opportunity)
    (opps : List Opportunity) : List Opportunity :=
  opps.map fun o =>
    if allowed o.state target then { body o with state := target } else o

namespace SaleOpportunity

/-- `default_probability`. -/
def default_probability : Int := 50

/-- The probability a freshly created record stores when the caller
supplies (`some`) or omits (`Option.none`) the field: the framework fills a
missing field with the model's default. -/
def probabilityOnCreate (supplied : Option Int) : Int :=
  supplied.getD default_probability

/-- The `check_percentage` SQL constraint from `__setup__`:
`(t.probability >= 0) & (t.probability <= 100)`. -/
def check_percentage (probability : Int) : Prop :=
  0 ≤ probability ∧ probability ≤ 100

instance (p : Int) : Decidable (check_percentage p) :=
  inferInstanceAs (Decidable (0 ≤ p ∧ p ≤ 100))

/-- The reference string `Sequence.get_id` yields for the `seq`-th draw of
the opportunity sequence (an abstract injective sequence of fresh ids). -/
def sequenceRef (seq : Nat) : String := "SEQ" ++ toString seq

/-- `SaleOpportunity.create` for one record: the sequence assigns
`reference` (overwriting whatever the caller supplied) and the database
rejects a record violating `check_percentage`.  Returns the stored record
and the advanced sequence counter. -/
def create (seq : Nat) (vals : Opportunity) : Except String (Opportunity × Nat) :=
  if check_percentage vals.probability then
    Except.ok ({ vals with reference := some (sequenceRef seq) }, seq + 1)
  else Except.error "check_percentage"

/-- `create` over a list of values, threading the sequence counter. -/
def createMany (seq : Nat) : List Opportunity → Except String (List Opportunity × Nat)
  | [] => Except.ok ([], seq)
  | v :: vs =>
    match create seq v with
    | Except.error e => Except.error e
    | Except.ok (o, seq2) =>
      match createMany seq2 vs with
      | Except.error e => Except.error e
      | Except.ok (os, seq3) => Except.ok (o :: os, seq3)

/-- A write of the `probability` column: the database enforces
`check_percentage` on every write. -/
def writeProbability (o : Opportunity) (p : Int) : Except String Opportunity :=
  if check_percentage p then Except.ok { o with probability := p }
  else Except.error "check_percentage"

/-- `SaleOpportunity.get_sale_state`. -/
def get_sale_state (o : Opportunity) : OppSaleState :=
  if o.sales.isEmpty then OppSaleState.none
  else if o.sales.all (fun s => decide (s.state = SaleState.done)) then
    OppSaleState.done
  else if o.sales.any (fun s =>
      decide (s.state ∈ [SaleState.confirmed, SaleState.processing, SaleState.done])) then
    OppSaleState.confirmed
  else if o.sales.all (fun s => decide (s.state = SaleState.cancel)) then
    OppSaleState.cancelled
  else if o.sales.any (fun s => decide (s.state = SaleState.draft)) then
    OppSaleState.waiting
  else OppSaleState.none

/-- `SaleOpportunity.set_sale_state`: writes the recomputed sale state only
when it differs from the stored one.  The boolean reports whether a write
was issued. -/
def set_sale_state (o : Opportunity) : Opportunity × Bool :=
  let st := get_sale_state o
  if o.sale_state ≠ st then ({ o with sale_state := st }, true) else (o, false)

/-- `SaleOpportunity.is_reset`. -/
def is_reset (o : Opportunity) : Prop :=
  o.state = OppState.lost ∧ o.sale_state = OppSaleState.waiting

/-- `SaleOpportunity.is_won`. -/
def is_won (o : Opportunity) : Prop := o.sale_state = OppSaleState.confirmed

/-- `SaleOpportunity.is_lost`. -/
def is_lost (o : Opportunity) : Prop := o.sale_state = OppSaleState.cancelled

instance (o : Opportunity) : Decidable (is_reset o) :=
  inferInstanceAs (Decidable (_ ∧ _))

instance (o : Opportunity) : Decidable (is_won o) :=
  inferInstanceAs (Decidable (_ = _))

instance (o : Opportunity) : Decidable (is_lost o) :=
  inferInstanceAs (Decidable (_ = _))

/-- The sum computed by `set_won_amount` for one opportunity:
`sum(s.total_amount for s in opportunity.sales if s.state in
['confirmed', 'processing', 'done'])`. -/
def wonAmountOf (o : Opportunity) : Rat :=
  ((o.sales.filter (fun s =>
      decide (s.state ∈ [SaleState.confirmed, SaleState.processing, SaleState.done]))).map
    (fun s => s.total_amount)).sum

/-- The `won` transition: `set_end_date` then `set_won_amount` on the
records the workflow filter lets through, then the state write. -/
def won (today : Int) : List Opportunity → List Opportunity :=
  workflowTransition OppState.won fun o =>
    { o with end_date := some today, won_amount := some (wonAmountOf o) }

/-- The `lost` transition: `set_end_date` then the state write. -/
def lost (today : Int) : List Opportunity → List Opportunity :=
  workflowTransition OppState.lost fun o => { o with end_date := some today }

/-- The `cancel` transition: `set_end_date` then the state write. -/
def cancel (today : Int) : List Opportunity → List Opportunity :=
  workflowTransition OppState.cancelled fun o => { o with end_date := some today }

/-- The `lead` transition (empty body). -/
def lead : List Opportunity → List Opportunity :=
  workflowTransition OppState.lead id

/-- The `opportunity` transition (empty body). -/
def opportunity : List Opportunity → List Opportunity :=
  workflowTransition OppState.opportunity id

/-- `_get_sale_opportunity`: the sale built from an opportunity.  (The
`customer_payment_type` hasattr branch concerns a field of another module
and is outside the modelled sale fields; a fresh sale has no lines, hence
`total_amount = 0`, and its state defaults to `draft`.) -/
def saleOpportunityOf (o : Opportunity) : SaleRec :=
  { description := o.description
    party := o.party
    payment_term := o.payment_term
    company := o.company
    invoice_address := o.address
    shipment_address := o.address
    currency := o.company.currency
    sale_date := Option.none
    state := SaleState.draft
    total_amount := 0 }

/-- One step of `_convert`'s loop on a record the workflow filter lets
through: `create_sale` (build the sale, save it, add it to the `sales`
relation), then `set_sale_state`, then the decorator's state write.
Records the filter skips are untouched and yield no sale. -/
def convertStep (o : Opportunity) : Opportunity × Option SaleRec :=
  if allowed o.state OppState.converted then
    let sale := saleOpportunityOf o
    let o2 := { o with sales := o.sales ++ [sale] }
    let o3 := (set_sale_state o2).1
    ({ o3 with state := OppState.converted }, some sale)
  else (o, Option.none)

/-- `SaleOpportunity._convert` (as wrapped by
`Workflow.transition('converted')`): returns the updated records and the
list of created sales. -/
def convert (opps : List Opportunity) : List Opportunity × List SaleRec :=
  let pairs := opps.map convertStep
  (pairs.map (fun p => p.1), pairs.filterMap (fun p => p.2))

/-- `SaleOpportunity.delete`: cancel first, then refuse deletion while some
record is still not cancelled (`raise_user_error('delete_cancel', ...)`
aborts, deleting nothing); otherwise every record of the list is deleted. -/
def delete (today : Int) (opps : List Opportunity) : Except String (List Opportunity) :=
  let opps2 := cancel today opps
  if opps2.any (fun o => decide (o.state ≠ OppState.cancelled)) then
    Except.error "delete_cancel"
  else Except.ok []

/-- The per-record effect of the writes `process` issues after
classification.  A record classified `won` receives `cls.won` (whose
workflow filter may skip it) and then the direct `state := won` write; a
record classified `lost` receives `cls.lost`, the direct `state := lost`
write, and — when the `reset` list is nonempty — the final (buggy) write
that targets the `lost` list; a record in neither class is never written. -/
def processStep (today : Int) (anyReset : Bool) (o : Opportunity) : Opportunity :=
  if is_won o then
    let o2 :=
      if allowed o.state OppState.won then
        { o with
          end_date := some today
          won_amount := some (wonAmountOf o)
          state := OppState.won }
      else o
    { o2 with state := OppState.won }
  else if is_lost o then
    let o2 :=
      if allowed o.state OppState.lost then
        { o with end_date := some today, state := OppState.lost }
      else o
    let o3 := { o2 with state := OppState.lost }
    if anyReset then { o3 with state := OppState.converted } else o3
  else o

/-- `SaleOpportunity.process`: recompute every record's `sale_state`,
classify into `won` / `lost` / `reset`, then issue the writes.  Note the
source's last write is `cls.write(lost, {'state': 'converted'})` — it
targets the `lost` list although it is guarded by `if reset:`. -/
def process (today : Int) (opps : List Opportunity) : List Opportunity :=
  let opps2 := opps.map (fun o => (set_sale_state o).1)
  let anyReset := opps2.any (fun o =>
    decide (¬ is_won o ∧ ¬ is_lost o ∧ is_reset o))
  opps2.map (processStep today anyReset)

/-- The caller-supplied `default` mapping of `SaleOpportunity.copy`: a
dictionary whose keys range over the copyable fields (`some v` means the
key is present with value `v`). -/
structure CopyDefaults where
  reference : Option (Option String) := Option.none
  party : Option (Option Nat) := Option.none
  address : Option (Option Nat) := Option.none
  company : Option Company := Option.none
  expected_amount : Option (Option Rat) := Option.none
  won_amount : Option (Option Rat) := Option.none
  payment_term : Option (Option Nat) := Option.none
  employee : Option Nat := Option.none
  start_date : Option Int := Option.none
  end_date : Option (Option Int) := Option.none
  description : Option (Option String) := Option.none
  comment : Option (Option String) := Option.none
  state : Option OppState := Option.none
  probability : Option Int := Option.none
  lost_reason : Option (Option String) := Option.none
  sale_state : Option OppSaleState := Option.none
  history : Option (List Nat) := Option.none
  sales : Option (List SaleRec) := Option.none
deriving DecidableEq

/-- The `setdefault` calls of `SaleOpportunity.copy` (applied, in the
source, to a copy of the caller's dictionary): `sale_state` defaults to
`'none'` and `won_amount`, `reference`, `history`, `sales` default to
cleared. -/
def setdefaults (d : CopyDefaults) : CopyDefaults :=
  { d with
    sale_state := some (d.sale_state.getD OppSaleState.none)
    won_amount := some (d.won_amount.getD Option.none)
    reference := some (d.reference.getD Option.none)
    history := some (d.history.getD [])
    sales := some (d.sales.getD []) }

/-- `ModelSQL.copy`'s value construction for one record: every field comes
from the source record unless the defaults dictionary carries the key. -/
def applyDefaults (d : CopyDefaults) (o : Opportunity) : Opportunity :=
  { reference := d.reference.getD o.reference
    party := d.party.getD o.party
    address := d.address.getD o.address
    company := d.company.getD o.company
    expected_amount := d.expected_amount.getD o.expected_amount
    won_amount := d.won_amount.getD o.won_amount
    payment_term := d.payment_term.getD o.payment_term
    employee := d.employee.getD o.employee
    start_date := d.start_date.getD o.start_date
    end_date := d.end_date.getD o.end_date
    description := d.description.getD o.description
    comment := d.comment.getD o.comment
    state := d.state.getD o.state
    probability := d.probability.getD o.probability
    lost_reason := d.lost_reason.getD o.lost_reason
    sale_state := d.sale_state.getD o.sale_state
    history := d.history.getD o.history
    sales := d.sales.getD o.sales }

/-- `SaleOpportunity.copy`: a missing dictionary becomes `{}`, the
`setdefault`s are applied to a copy of the caller's dictionary (the second
component returns the caller's dictionary as the call leaves it: unchanged,
because the source rebinds `default` to `default.copy()` before mutating),
and `super().copy` builds each duplicate's values and creates it. -/
def copy (opps : List Opportunity) (default : Option CopyDefaults) (seq : Nat) :
    Except String (List Opportunity × Option CopyDefaults × Nat) :=
  let d := setdefaults (default.getD {})
  match createMany seq (opps.map (applyDefaults d)) with
  | Except.error e => Except.error e
  | Except.ok (dups, seq2) => Except.ok (dups, default, seq2)

end SaleOpportunity

/-- An opportunity as seen from a sale being deleted: its display name and
the ids of the sales linked to it. -/
structure LinkedOpportunity where
  rec_name : String
  sales : List Nat
deriving DecidableEq

/-- A `sale.sale` record as seen by `Sale.delete`: its id, display name and
linked opportunities. -/
structure SaleRecord where
  id : Nat
  rec_name : String
  opportunities : List LinkedOpportunity
deriving DecidableEq

namespace Sale

/-- The double loop of `Sale.delete`: the first sale having an opportunity
whose `sales` list has length one, with that opportunity. -/
def findLastSale : List SaleRecord → Option (SaleRecord × LinkedOpportunity)
  | [] => Option.none
  | s :: rest =>
    match s.opportunities.find? (fun o => decide (o.sales.length = 1)) with
    | some o => some (s, o)
    | Option.none => findLastSale rest

/-- `Sale.delete`: raise `delete_last_sale` (with the sale's and the
opportunity's names) as soon as some sale to delete is the only sale of one
of its opportunities — aborting before anything is deleted — and otherwise
delete the listed sales from the database. -/
def delete (toDelete db : List SaleRecord) :
    Except (String × String × String) (List SaleRecord) :=
  match findLastSale toDelete with
  | some (s, o) => Except.error ("delete_last_sale", s.rec_name, o.rec_name)
  | Option.none =>
    Except.ok (db.filter (fun r => decide (¬ ∃ t ∈ toDelete, t.id = r.id)))

end Sale

namespace SaleOpportunityEmployee

/-- `SaleOpportunityEmployee.get_win_rate`; the two integer columns may be
NULL (`Option.none`).  `float(self.won)` on a NULL `won` would raise, which
the model renders as `Option.none`; Python's truthiness test `if
self.number:` is false exactly on NULL and 0. -/
def get_win_rate (wonCount number : Option Int) : Option Rat :=
  if number.getD 0 ≠ 0 then
    wonCount.map (fun w => (w : Rat) / ((number.getD 0 : Int) : Rat) * 100)
  else some 0

end SaleOpportunityEmployee

namespace SaleOpportunityMonthly

/-- `SaleOpportunityMonthly.get_win_rate` (textually identical to the
per-employee variant in the source). -/
def get_win_rate (wonCount number : Option Int) : Option Rat :=
  if number.getD 0 ≠ 0 then
    wonCount.map (fun w => (w : Rat) / ((number.getD 0 : Int) : Rat) * 100)
  else some 0

end SaleOpportunityMonthly

namespace SaleOpportunityEmployeeMonthly

/-- `SaleOpportunityEmployeeMonthly.get_win_rate` (textually identical to
the per-employee variant in the source). -/
def get_win_rate (wonCount number : Option Int) : Option Rat :=
  if number.getD 0 ≠ 0 then
    wonCount.map (fun w => (w : Rat) / ((number.getD 0 : Int) : Rat) * 100)
  else some 0

end SaleOpportunityEmployeeMonthly

section Helpers

/-- Indexing a mapped list below its length applies the function to the
indexed element. -/
theorem getD_map_of_lt {α β : Type} (f : α → β) (l : List α) (i : Nat)
    (h : i < l.length) (d : α) (d2 : β) :
    (l.map f).getD i d2 = f (l.getD i d) := by
  induction l generalizing i with
  | nil => simp at h
  | cons a l ih =>
    cases i with
    | zero => rfl
    | succ j =>
      have hj : j < l.length := by
        simpa using Nat.lt_of_succ_lt_succ (by simpa using h)
      simpa using ih j hj

/-- `set_sale_state` stores the recomputed sale state (a no-op write when
it is unchanged) and touches no other column. -/
theorem set_sale_state_eq (o : Opportunity) :
    (SaleOpportunity.set_sale_state o).1 =
      { o with sale_state := SaleOpportunity.get_sale_state o } := by
  unfold SaleOpportunity.set_sale_state
  by_cases hne : o.sale_state ≠ SaleOpportunity.get_sale_state o
  · simp [hne]
  · simp only [ne_eq, not_not] at hne
    simp only [ne_eq, hne, not_true_eq_false, if_neg, ite_false]
    conv_rhs => rw [← hne]

end Helpers

/-- C8: in each of the three report models, `get_win_rate` is
`won / number * 100` whenever `number` is a nonzero integer, and `0.0`
whenever `number` is zero or NULL, so the division only ever runs with a
nonzero divisor.  (Float arithmetic is modelled by exact rationals; the
claim concerns the guard and the formula, not rounding.) -/
theorem c8_win_rate_spec (w n : Int) (wc : Option Int) :
    (n ≠ 0 → SaleOpportunityEmployee.get_win_rate (some w) (some n) =
      some ((w : Rat) / (n : Rat) * 100))
    ∧ SaleOpportunityEmployee.get_win_rate wc (some 0) = some 0
    ∧ SaleOpportunityEmployee.get_win_rate wc Option.none = some 0
    ∧ (n ≠ 0 → SaleOpportunityMonthly.get_win_rate (some w) (some n) =
      some ((w : Rat) / (n : Rat) * 100))
    ∧ SaleOpportunityMonthly.get_win_rate wc (some 0) = some 0
    ∧ SaleOpportunityMonthly.get_win_rate wc Option.none = some 0
    ∧ (n ≠ 0 → SaleOpportunityEmployeeMonthly.get_win_rate (some w) (some n) =
      some ((w : Rat) / (n : Rat) * 100))
    ∧ SaleOpportunityEmployeeMonthly.get_win_rate wc (some 0) = some 0
    ∧ SaleOpportunityEmployeeMonthly.get_win_rate wc Option.none = some 0 := by
  refine ⟨fun h => ?_, ?_, ?_, fun h => ?_, ?_, ?_, fun h => ?_, ?_, ?_⟩ <;>
    simp [SaleOpportunityEmployee.get_win_rate,
      SaleOpportunityMonthly.get_win_rate,
      SaleOpportunityEmployeeMonthly.get_win_rate, *]

/-- Witness for C8 at `won = 1`, `number = 2`. -/
theorem c8_win_rate_spec_witness :
    SaleOpportunityEmployee.get_win_rate (some 1) (some 2) =
      some ((1 : Rat) / (2 : Rat) * 100) :=
  (c8_win_rate_spec 1 2 Option.none).1 (by decide)

/-- C6: every record a `create` or a probability write stores satisfies the
`check_percentage` constraint `0 <= probability <= 100`, and a create that
does not supply a probability stores the default `50`, which satisfies the
constraint. -/
theorem c6_probability_spec :
    (∀ seq vals o seq2, SaleOpportunity.create seq vals = Except.ok (o, seq2) →
      SaleOpportunity.check_percentage o.probability)
    ∧ (∀ o p o2, SaleOpportunity.writeProbability o p = Except.ok o2 →
      SaleOpportunity.check_percentage o2.probability)
    ∧ SaleOpportunity.probabilityOnCreate Option.none = 50
    ∧ SaleOpportunity.check_percentage
        (SaleOpportunity.probabilityOnCreate Option.none) := by
  refine ⟨?_, ?_, rfl, by decide⟩
  · intro seq vals o seq2 h
    unfold SaleOpportunity.create at h
    split at h
    · simp only [Except.ok.injEq, Prod.mk.injEq] at h
      obtain ⟨ho, -⟩ := h
      subst ho
      assumption
    · cases h
  · intro o p o2 h
    unfold SaleOpportunity.writeProbability at h
    split at h
    · simp only [Except.ok.injEq] at h
      subst h
      assumption
    · cases h

/-- Witness for C6: creating a record with probability 50 succeeds and the
stored record satisfies the constraint. -/
theorem c6_probability_spec_witness :
    SaleOpportunity.check_percentage
      ({ emptyOpp with reference := some (SaleOpportunity.sequenceRef 0) } :
        Opportunity).probability :=
  c6_probability_spec.1 0 emptyOpp
    { emptyOpp with reference := some (SaleOpportunity.sequenceRef 0) } 1 (by rfl)

/-- C4: `SaleOpportunity.delete` cancels first and then raises
`delete_cancel` exactly when some opportunity is still not cancelled after
the cancel transition (the raise aborts, so nothing is deleted); when every
opportunity ends up cancelled the whole list is deleted. -/
theorem c4_delete_spec (today : Int) (opps : List Opportunity) :
    (SaleOpportunity.delete today opps = Except.error "delete_cancel"
      ↔ ∃ o ∈ SaleOpportunity.cancel today opps, o.state ≠ OppState.cancelled)
    ∧ ((∀ o ∈ SaleOpportunity.cancel today opps, o.state = OppState.cancelled) →
      SaleOpportunity.delete today opps = Except.ok []) := by
  unfold SaleOpportunity.delete
  by_cases hb : (SaleOpportunity.cancel today opps).any
      (fun o => decide (o.state ≠ OppState.cancelled)) = true
  · rw [if_pos hb]
    refine ⟨⟨fun _ => ?_, fun _ => rfl⟩, fun hall => ?_⟩
    · simpa using hb
    · exfalso
      rcases List.any_eq_true.mp hb with ⟨o, ho, hdec⟩
      have hne : o.state ≠ OppState.cancelled := by simpa using hdec
      exact hne (hall o ho)
  · rw [if_neg hb]
    refine ⟨⟨fun hcontr => ?_, fun hex => ?_⟩, fun _ => rfl⟩
    · exact Except.noConfusion hcontr
    · rcases hex with ⟨o, ho, hne⟩
      exact absurd (List.any_eq_true.mpr ⟨o, ho, by simpa using hne⟩) hb

/-- Witness for C4: a lead opportunity is cancellable, so deleting it
succeeds. -/
theorem c4_delete_spec_witness :
    SaleOpportunity.delete 0 [emptyOpp] = Except.ok [] :=
  (c4_delete_spec 0 [emptyOpp]).2 (by decide)

/-- The double loop of `Sale.delete` finds no offending pair exactly when
no listed sale is the only sale of one of its opportunities. -/
theorem findLastSale_eq_none_iff (l : List SaleRecord) :
    Sale.findLastSale l = Option.none ↔
      ∀ s ∈ l, ∀ o ∈ s.opportunities, o.sales.length ≠ 1 := by
  induction l with
  | nil => simp [Sale.findLastSale]
  | cons s rest ih =>
    unfold Sale.findLastSale
    cases hf : s.opportunities.find? (fun o => decide (o.sales.length = 1)) with
    | some o =>
      simp only [reduceCtorEq, false_iff]
      have hmem := List.mem_of_find?_eq_some hf
      have hp : o.sales.length = 1 := by simpa using List.find?_some hf
      intro hall
      exact (hall s (List.mem_cons_self s rest) o hmem) hp
    | none =>
      have hs : ∀ o ∈ s.opportunities, o.sales.length ≠ 1 := by
        intro o ho
        have := List.find?_eq_none.mp hf o ho
        simpa using this
      simp only [ih]
      constructor
      · intro hrest t ht o ho
        rcases List.mem_cons.mp ht with h1 | h1
        · subst h1; exact hs o ho
        · exact hrest t h1 o ho
      · intro hall t ht o ho
        exact hall t (List.mem_cons_of_mem s ht) o ho

/-- C5: `Sale.delete` raises `delete_last_sale` exactly when some sale in
the list is the only sale linked to one of its opportunities; the check
runs before any deletion, so an error deletes nothing, and otherwise the
listed sales are removed from the database. -/
theorem c5_sale_delete_spec (toDelete db : List SaleRecord) :
    ((∃ s ∈ toDelete, ∃ o ∈ s.opportunities, o.sales.length = 1)
      ↔ ∃ e, Sale.delete toDelete db = Except.error e)
    ∧ (∀ e, Sale.delete toDelete db = Except.error e → e.1 = "delete_last_sale")
    ∧ ((¬ ∃ s ∈ toDelete, ∃ o ∈ s.opportunities, o.sales.length = 1) →
      Sale.delete toDelete db =
        Except.ok (db.filter (fun r => decide (¬ ∃ t ∈ toDelete, t.id = r.id)))) := by
  unfold Sale.delete
  cases hf : Sale.findLastSale toDelete with
  | some p =>
    obtain ⟨p1, p2⟩ := p
    have hne : ¬ ∀ s ∈ toDelete, ∀ o ∈ s.opportunities, o.sales.length ≠ 1 := by
      intro hall
      rw [← findLastSale_eq_none_iff] at hall
      rw [hf] at hall
      cases hall
    refine ⟨⟨fun _ => ⟨_, rfl⟩, fun _ => ?_⟩, ?_, ?_⟩
    · by_contra hcontr
      push_neg at hcontr
      apply hne
      intro s hs o ho
      exact hcontr s hs o ho
    · intro e he
      simp only [Except.error.injEq] at he
      subst he
      rfl
    · intro hno
      exfalso
      apply hne
      intro s hs o ho h1
      exact hno ⟨s, hs, o, ho, h1⟩
  | none =>
    have hall := (findLastSale_eq_none_iff toDelete).mp hf
    refine ⟨⟨fun hex => ?_, fun hex => ?_⟩, fun e he => ?_, fun _ => rfl⟩
    · rcases hex with ⟨s, hs, o, ho, h1⟩
      exact absurd h1 (hall s hs o ho)
    · rcases hex with ⟨e, he⟩
      exact Except.noConfusion he
    · exact Except.noConfusion he

/-- A concrete sale that is the only sale of its opportunity. -/
def c5sale : SaleRecord :=
  { id := 1, rec_name := "S1",
    opportunities := [{ rec_name := "O1", sales := [1] }] }

/-- Witness for C5: deleting the only sale of an opportunity errors. -/
theorem c5_sale_delete_spec_witness :
    ∃ e, Sale.delete [c5sale] [c5sale] = Except.error e :=
  (c5_sale_delete_spec [c5sale] [c5sale]).1.mp (by decide)

/-- The sale-state rule exactly as claim C9 words it: `'none'` with no
linked sales; otherwise `'done'` when every sale is done; otherwise
`'confirmed'` when some sale is confirmed, processing or done; otherwise
`'cancelled'` when every sale is cancelled; otherwise `'waiting'` when some
sale is draft; `'none'` in every remaining case. -/
def claimSaleState (o : Opportunity) : OppSaleState :=
  if o.sales = [] then OppSaleState.none
  else if ∀ s ∈ o.sales, s.state = SaleState.done then OppSaleState.done
  else if ∃ s ∈ o.sales, s.state = SaleState.confirmed ∨
      s.state = SaleState.processing ∨ s.state = SaleState.done then
    OppSaleState.confirmed
  else if ∀ s ∈ o.sales, s.state = SaleState.cancel then OppSaleState.cancelled
  else if ∃ s ∈ o.sales, s.state = SaleState.draft then OppSaleState.waiting
  else OppSaleState.none

/-- C9: `get_sale_state` computes exactly the cascade the claim describes,
and `set_sale_state` stores that value, issuing a write only when it
differs from the stored `sale_state`. -/
theorem c9_sale_state_spec (o : Opportunity) :
    SaleOpportunity.get_sale_state o = claimSaleState o
    ∧ (SaleOpportunity.set_sale_state o).1 =
        { o with sale_state := SaleOpportunity.get_sale_state o }
    ∧ ((SaleOpportunity.set_sale_state o).2 = true ↔
        o.sale_state ≠ SaleOpportunity.get_sale_state o) := by
  refine ⟨?_, set_sale_state_eq o, ?_⟩
  · by_cases h1 : o.sales = [] <;>
    by_cases h2 : ∀ s ∈ o.sales, s.state = SaleState.done <;>
    by_cases h3 : ∃ s ∈ o.sales, s.state = SaleState.confirmed ∨
      s.state = SaleState.processing ∨ s.state = SaleState.done <;>
    by_cases h4 : ∀ s ∈ o.sales, s.state = SaleState.cancel <;>
    by_cases h5 : ∃ s ∈ o.sales, s.state = SaleState.draft <;>
    simp [SaleOpportunity.get_sale_state, claimSaleState, h1, h2, h3, h4, h5,
      List.isEmpty_iff, List.all_eq_true, List.any_eq_true]
  · unfold SaleOpportunity.set_sale_state
    by_cases hne : o.sale_state ≠ SaleOpportunity.get_sale_state o
    · simp [hne]
    · simp [hne]

/-- Witness for C9 at a concrete record without sales. -/
theorem c9_sale_state_spec_witness :
    SaleOpportunity.get_sale_state emptyOpp = claimSaleState emptyOpp :=
  (c9_sale_state_spec emptyOpp).1

/-- A confirmed sale worth 10. -/
def confirmedSale : SaleRec :=
  { description := Option.none
    party := Option.none
    payment_term := Option.none
    company := { currency := 0 }
    invoice_address := Option.none
    shipment_address := Option.none
    currency := 0
    sale_date := Option.none
    state := SaleState.confirmed
    total_amount := 10 }

/-- A draft sale. -/
def draftSale : SaleRec := { confirmedSale with state := SaleState.draft }

/-- A lead-state opportunity linked to a confirmed sale. -/
def leadWithConfirmedSale : Opportunity :=
  { emptyOpp with state := OppState.lead, sales := [confirmedSale] }

/-- A lead-state opportunity (no sales). -/
def c1opp : Opportunity := { emptyOpp with state := OppState.lead }

/-- C1 counterexample: `_convert` on a list holding one lead-state
opportunity creates no sale at all and leaves the state `lead`, because the
`Workflow.transition('converted')` wrapper filters the record out; the
claim, as stated, promises one sale and state `converted` for every
opportunity in the list. -/
theorem c1_counterexample :
    (SaleOpportunity.convert [c1opp]).2.length ≠ 1
    ∧ (SaleOpportunity.convert [c1opp]).1.map (fun o => o.state) ≠
        [OppState.converted] := by decide

/-- An opportunity in the `reset` situation of `process`: state `lost`
while its (recomputed) sale state is `waiting`. -/
def c2opp : Opportunity :=
  { emptyOpp with
    state := OppState.lost
    sale_state := OppSaleState.waiting
    sales := [draftSale] }

/-- C2: evaluation at the failing input.  The record is classified `reset`
(its recomputed sale state is `waiting` and its state is `lost`), yet
`process` leaves its state `lost`: the final write is issued on the `lost`
list — which is empty here — instead of the `reset` list, so the claimed
reset to `converted` never happens. -/
theorem c2_process_reset_bug :
    SaleOpportunity.get_sale_state c2opp = OppSaleState.waiting
    ∧ SaleOpportunity.is_reset ((SaleOpportunity.set_sale_state c2opp).1)
    ∧ (SaleOpportunity.process 0 [c2opp]).map (fun o => o.state) =
        [OppState.lost] := by decide

/-- C3 counterexample: `process` on a lead-state opportunity holding a
confirmed sale writes state `won` directly, although `(lead, won)` is not a
declared transition. -/
theorem c3_counterexample :
    leadWithConfirmedSale.state = OppState.lead
    ∧ (SaleOpportunity.process 0 [leadWithConfirmedSale]).map (fun o => o.state) =
        [OppState.won]
    ∧ (OppState.lead, OppState.won) ∉ transitions := by decide

/-- C7 counterexample: the `won` transition on a list holding one
lead-state opportunity (with a confirmed sale worth 10) is filtered out by
the workflow wrapper, so neither `end_date` nor `won_amount` is set; the
claim, as stated, promises both for every opportunity of the list. -/
theorem c7_counterexample :
    leadWithConfirmedSale.state = OppState.lead
    ∧ (SaleOpportunity.won 7 [leadWithConfirmedSale]).map (fun o => o.end_date) =
        [(Option.none : Option Int)]
    ∧ (SaleOpportunity.won 7 [leadWithConfirmedSale]).map (fun o => o.won_amount) =
        [(Option.none : Option Rat)] := by decide

/-- A source opportunity for the copy counterexample, with a reference. -/
def c10opp : Opportunity :=
  { emptyOpp with reference := some "OPP1", party := some 7 }

/-- C10 counterexample: copying with no caller defaults yields a duplicate
whose `reference` is a freshly drawn sequence value, not a cleared (`None`)
reference as the claim states: `create` overwrites the reference of every
record it stores. -/
theorem c10_counterexample :
    (SaleOpportunity.copy [c10opp] Option.none 0).map
        (fun r => r.1.map (fun o => o.reference)) =
      Except.ok [some (SaleOpportunity.sequenceRef 0)]
    ∧ some (SaleOpportunity.sequenceRef 0) ≠ (Option.none : Option String) := by
  exact ⟨rfl, by decide⟩

/-- A state change from `o` to `o2` stays on the spot or follows a
declared transition edge. -/
def edgeOk (o o2 : Opportunity) : Prop :=
  o2.state = o.state ∨ (o.state, o2.state) ∈ transitions

/-- One record of a workflow transition either keeps its state (filtered
out) or moves along the declared edge it was filtered by. -/
theorem edgeOk_step (target : OppState) (body : Opportunity → Opportunity)
    (o : Opportunity) :
    edgeOk o (if allowed o.state target then { body o with state := target } else o) := by
  by_cases ha : allowed o.state target
  · rw [if_pos ha]
    exact Or.inr ha
  · rw [if_neg ha]
    exact Or.inl rfl

/-- Indexed form of `edgeOk_step` over a whole workflow transition call. -/
theorem edgeOk_workflowTransition_getD (target : OppState)
    (body : Opportunity → Opportunity) (opps : List Opportunity) (i : Nat)
    (h : i < opps.length) :
    edgeOk (opps.getD i emptyOpp)
      ((workflowTransition target body opps).getD i emptyOpp) := by
  unfold workflowTransition
  rw [getD_map_of_lt _ opps i h emptyOpp emptyOpp]
  exact edgeOk_step target body _

/-- The records returned by `_convert` viewed as a pointwise map. -/
theorem convert_fst_eq_map (opps : List Opportunity) :
    (SaleOpportunity.convert opps).1 =
      opps.map (fun o => (SaleOpportunity.convertStep o).1) := by
  unfold SaleOpportunity.convert
  exact List.map_map _ _ _

/-- `_convert` stays on declared edges record by record. -/
theorem edgeOk_convert_getD (opps : List Opportunity) (i : Nat)
    (h : i < opps.length) :
    edgeOk (opps.getD i emptyOpp)
      ((SaleOpportunity.convert opps).1.getD i emptyOpp) := by
  rw [convert_fst_eq_map, getD_map_of_lt _ opps i h emptyOpp emptyOpp]
  unfold SaleOpportunity.convertStep
  by_cases ha : allowed (opps.getD i emptyOpp).state OppState.converted
  · rw [if_pos ha]
    exact Or.inr ha
  · rw [if_neg ha]
    exact Or.inl rfl

/-- C3 (amended): every state change performed by the workflow transition
methods — `lead`, `opportunity`, `won`, `lost`, `cancel` and `_convert` —
moves along an edge of the declared transition set (or leaves the state
untouched when the workflow filter skips the record).  The direct writes
inside `process` are NOT so constrained: see the counterexample. -/
theorem c3_transitions_amended (today : Int) (opps : List Opportunity) (i : Nat)
    (h : i < opps.length) :
    edgeOk (opps.getD i emptyOpp) ((SaleOpportunity.lead opps).getD i emptyOpp)
    ∧ edgeOk (opps.getD i emptyOpp)
        ((SaleOpportunity.opportunity opps).getD i emptyOpp)
    ∧ edgeOk (opps.getD i emptyOpp)
        ((SaleOpportunity.won today opps).getD i emptyOpp)
    ∧ edgeOk (opps.getD i emptyOpp)
        ((SaleOpportunity.lost today opps).getD i emptyOpp)
    ∧ edgeOk (opps.getD i emptyOpp)
        ((SaleOpportunity.cancel today opps).getD i emptyOpp)
    ∧ edgeOk (opps.getD i emptyOpp)
        ((SaleOpportunity.convert opps).1.getD i emptyOpp) := by
  refine ⟨?_, ?_, ?_, ?_, ?_, edgeOk_convert_getD opps i h⟩
  · exact edgeOk_workflowTransition_getD OppState.lead id opps i h
  · exact edgeOk_workflowTransition_getD OppState.opportunity id opps i h
  · exact edgeOk_workflowTransition_getD OppState.won
      (fun o =>
        { o with
          end_date := some today
          won_amount := some (SaleOpportunity.wonAmountOf o) }) opps i h
  · exact edgeOk_workflowTransition_getD OppState.lost
      (fun o => { o with end_date := some today }) opps i h
  · exact edgeOk_workflowTransition_getD OppState.cancelled
      (fun o => { o with end_date := some today }) opps i h

/-- Witness for C3 (amended) at a concrete one-element list. -/
theorem c3_transitions_amended_witness :
    edgeOk (([emptyOpp] : List Opportunity).getD 0 emptyOpp)
      ((SaleOpportunity.lead [emptyOpp]).getD 0 emptyOpp) :=
  (c3_transitions_amended 0 [emptyOpp] 0 (by decide)).1

/-- The `set_won_amount` sum written as claim C7 words it. -/
theorem wonAmountOf_eq_claim_sum (o : Opportunity) :
    SaleOpportunity.wonAmountOf o =
      ((o.sales.filter (fun s => decide (s.state = SaleState.confirmed ∨
          s.state = SaleState.processing ∨ s.state = SaleState.done))).map
        (fun s => s.total_amount)).sum := by
  unfold SaleOpportunity.wonAmountOf
  congr 2
  apply List.filter_congr
  intro s _
  rw [decide_eq_decide]
  simp

/-- C7 (amended): for each opportunity of the list whose state admits the
transition to `won` (state `opportunity` or `converted`), the `won`
transition sets `end_date` to today and `won_amount` to the sum of
`total_amount` over exactly its confirmed, processing or done sales (0 when
there is none, the sum of an empty list); an opportunity whose state does
not admit the transition is filtered out by the workflow wrapper and left
entirely unchanged. -/
theorem c7_won_amended (today : Int) (opps : List Opportunity) (i : Nat)
    (h : i < opps.length) :
    (SaleOpportunity.won today opps).length = opps.length
    ∧ (allowed (opps.getD i emptyOpp).state OppState.won →
        ((SaleOpportunity.won today opps).getD i emptyOpp).end_date = some today
        ∧ ((SaleOpportunity.won today opps).getD i emptyOpp).won_amount =
            some ((((opps.getD i emptyOpp).sales.filter (fun s =>
              decide (s.state = SaleState.confirmed ∨
                s.state = SaleState.processing ∨
                s.state = SaleState.done))).map (fun s => s.total_amount)).sum)
        ∧ ((SaleOpportunity.won today opps).getD i emptyOpp).state = OppState.won)
    ∧ (¬ allowed (opps.getD i emptyOpp).state OppState.won →
        (SaleOpportunity.won today opps).getD i emptyOpp = opps.getD i emptyOpp) := by
  unfold SaleOpportunity.won workflowTransition
  rw [getD_map_of_lt _ opps i h emptyOpp emptyOpp]
  refine ⟨by simp, fun ha => ?_, fun hna => ?_⟩
  · rw [if_pos ha]
    exact ⟨rfl, by rw [← wonAmountOf_eq_claim_sum], rfl⟩
  · rw [if_neg hna]

/-- Witness for C7 (amended): an opportunity-state record with one
confirmed sale gets `end_date` and the sale's amount. -/
theorem c7_won_amended_witness :
    ((SaleOpportunity.won 7 [{ leadWithConfirmedSale with
        state := OppState.opportunity }]).getD 0 emptyOpp).end_date = some 7 :=
  ((c7_won_amended 7 [{ leadWithConfirmedSale with
      state := OppState.opportunity }] 0 (by decide)).2.1 (by decide)).1

/-- The sales returned by `_convert` viewed as a filtered map. -/
theorem convert_snd_eq_filterMap (opps : List Opportunity) :
    (SaleOpportunity.convert opps).2 =
      opps.filterMap (fun o =>
        if allowed o.state OppState.converted then
          some (SaleOpportunity.saleOpportunityOf o)
        else Option.none) := by
  show (opps.map SaleOpportunity.convertStep).filterMap (fun p => p.2) = _
  rw [List.filterMap_map]
  congr 1
  funext o
  unfold SaleOpportunity.convertStep
  by_cases ha : allowed o.state OppState.converted
  · simp [ha]
  · simp [ha]

/-- C1 (amended): `_convert` creates exactly one sale — with description,
party, payment term, company, both addresses, the company currency and no
sale date, all taken from the opportunity — for each opportunity of the
list whose state admits the transition to `converted` (state `opportunity`
or `converted`), returning those sales in input order, linking each sale to
its opportunity's `sales` relation and setting that opportunity's state to
`converted`; an opportunity whose state does not admit the transition is
filtered out by the workflow wrapper: it is left unchanged and gets no
sale. -/
theorem c1_convert_amended (opps : List Opportunity) (i : Nat)
    (h : i < opps.length) :
    (SaleOpportunity.convert opps).1.length = opps.length
    ∧ (SaleOpportunity.convert opps).2 =
        opps.filterMap (fun o =>
          if allowed o.state OppState.converted then
            some (SaleOpportunity.saleOpportunityOf o)
          else Option.none)
    ∧ (∀ o : Opportunity, (SaleOpportunity.saleOpportunityOf o).description = o.description
        ∧ (SaleOpportunity.saleOpportunityOf o).party = o.party
        ∧ (SaleOpportunity.saleOpportunityOf o).payment_term = o.payment_term
        ∧ (SaleOpportunity.saleOpportunityOf o).company = o.company
        ∧ (SaleOpportunity.saleOpportunityOf o).invoice_address = o.address
        ∧ (SaleOpportunity.saleOpportunityOf o).shipment_address = o.address
        ∧ (SaleOpportunity.saleOpportunityOf o).currency = o.company.currency
        ∧ (SaleOpportunity.saleOpportunityOf o).sale_date = Option.none)
    ∧ (allowed (opps.getD i emptyOpp).state OppState.converted →
        ((SaleOpportunity.convert opps).1.getD i emptyOpp).state = OppState.converted
        ∧ ((SaleOpportunity.convert opps).1.getD i emptyOpp).sales =
            (opps.getD i emptyOpp).sales ++
              [SaleOpportunity.saleOpportunityOf (opps.getD i emptyOpp)])
    ∧ (¬ allowed (opps.getD i emptyOpp).state OppState.converted →
        (SaleOpportunity.convert opps).1.getD i emptyOpp = opps.getD i emptyOpp) := by
  refine ⟨?_, convert_snd_eq_filterMap opps, fun o => ⟨rfl, rfl, rfl, rfl, rfl, rfl, rfl, rfl⟩,
    fun ha => ?_, fun hna => ?_⟩
  · rw [convert_fst_eq_map]
    simp
  · rw [convert_fst_eq_map, getD_map_of_lt _ opps i h emptyOpp emptyOpp]
    unfold SaleOpportunity.convertStep
    rw [if_pos ha]
    refine ⟨rfl, ?_⟩
    show ((SaleOpportunity.set_sale_state _).1).sales = _
    rw [set_sale_state_eq]
  · rw [convert_fst_eq_map, getD_map_of_lt _ opps i h emptyOpp emptyOpp]
    unfold SaleOpportunity.convertStep
    rw [if_neg hna]

/-- Witness for C1 (amended): converting one opportunity-state record. -/
theorem c1_convert_amended_witness :
    ((SaleOpportunity.convert [{ emptyOpp with
        state := OppState.opportunity }]).1.getD 0 emptyOpp).state =
      OppState.converted :=
  ((c1_convert_amended [{ emptyOpp with state := OppState.opportunity }] 0
      (by decide)).2.2.2.1 (by decide)).1

/-- When every value list entry passes the probability constraint,
`createMany` succeeds, draws one fresh sequence reference per record in
order, and changes nothing else. -/
theorem createMany_ok (vs : List Opportunity) : ∀ seq : Nat,
    (∀ v ∈ vs, SaleOpportunity.check_percentage v.probability) →
    ∃ dups, SaleOpportunity.createMany seq vs = Except.ok (dups, seq + vs.length)
      ∧ dups.length = vs.length
      ∧ ∀ i, i < vs.length →
          dups.getD i emptyOpp =
            { vs.getD i emptyOpp with
              reference := some (SaleOpportunity.sequenceRef (seq + i)) } := by
  induction vs with
  | nil =>
    intro seq hv
    refine ⟨[], by simp [SaleOpportunity.createMany], rfl, fun i hi => ?_⟩
    simp at hi
  | cons v vs ih =>
    intro seq hv
    have hcv : SaleOpportunity.create seq v =
        Except.ok ({ v with reference := some (SaleOpportunity.sequenceRef seq) },
          seq + 1) := by
      unfold SaleOpportunity.create
      rw [if_pos (hv v (List.mem_cons_self v vs))]
    obtain ⟨dups, h1, h2, h3⟩ :=
      ih (seq + 1) (fun u hu => hv u (List.mem_cons_of_mem v hu))
    refine ⟨{ v with reference := some (SaleOpportunity.sequenceRef seq) } :: dups,
      ?_, by simp [h2], ?_⟩
    · unfold SaleOpportunity.createMany
      simp only [hcv, h1]
      have harith : seq + 1 + vs.length = seq + (v :: vs).length := by
        simp only [List.length_cons]
        omega
      rw [harith]
    · intro i hi
      cases i with
      | zero => simp
      | succ j =>
        have hj : j < vs.length := by
          simpa using Nat.lt_of_succ_lt_succ (by simpa using hi)
        have hd := h3 j hj
        rw [show seq + 1 + j = seq + (j + 1) from by omega] at hd
        simpa using hd

/-- C10 (amended): `SaleOpportunity.copy` duplicates the given records;
each duplicate's `sale_state` is `'none'` and its `won_amount`, `history`
and `sales` are cleared unless the caller's defaults carry those keys, all
remaining fields are copied from the source record unless the caller's
defaults override them, and the caller's mapping itself is left unchanged
(a copy is modified instead) — except that `reference` is never cleared:
`create` assigns every duplicate a freshly drawn sequence reference,
overriding both the cleared default and any caller-supplied value. -/
theorem c10_copy_amended (opps : List Opportunity)
    (default : Option SaleOpportunity.CopyDefaults) (seq : Nat)
    (hv : ∀ o ∈ opps, SaleOpportunity.check_percentage
      (SaleOpportunity.applyDefaults
        (SaleOpportunity.setdefaults (default.getD {})) o).probability) :
    ∃ dups seq2,
      SaleOpportunity.copy opps default seq = Except.ok (dups, default, seq2)
      ∧ dups.length = opps.length
      ∧ seq2 = seq + opps.length
      ∧ ∀ i, i < opps.length →
          (dups.getD i emptyOpp).sale_state =
            ((default.getD {}).sale_state.getD OppSaleState.none)
          ∧ (dups.getD i emptyOpp).won_amount =
            ((default.getD {}).won_amount.getD Option.none)
          ∧ (dups.getD i emptyOpp).history = ((default.getD {}).history.getD [])
          ∧ (dups.getD i emptyOpp).sales = ((default.getD {}).sales.getD [])
          ∧ (dups.getD i emptyOpp).reference =
            some (SaleOpportunity.sequenceRef (seq + i))
          ∧ (dups.getD i emptyOpp).party =
            ((default.getD {}).party.getD ((opps.getD i emptyOpp).party))
          ∧ (dups.getD i emptyOpp).address =
            ((default.getD {}).address.getD ((opps.getD i emptyOpp).address))
          ∧ (dups.getD i emptyOpp).company =
            ((default.getD {}).company.getD ((opps.getD i emptyOpp).company))
          ∧ (dups.getD i emptyOpp).expected_amount =
            ((default.getD {}).expected_amount.getD
              ((opps.getD i emptyOpp).expected_amount))
          ∧ (dups.getD i emptyOpp).payment_term =
            ((default.getD {}).payment_term.getD
              ((opps.getD i emptyOpp).payment_term))
          ∧ (dups.getD i emptyOpp).employee =
            ((default.getD {}).employee.getD ((opps.getD i emptyOpp).employee))
          ∧ (dups.getD i emptyOpp).start_date =
            ((default.getD {}).start_date.getD ((opps.getD i emptyOpp).start_date))
          ∧ (dups.getD i emptyOpp).end_date =
            ((default.getD {}).end_date.getD ((opps.getD i emptyOpp).end_date))
          ∧ (dups.getD i emptyOpp).description =
            ((default.getD {}).description.getD
              ((opps.getD i emptyOpp).description))
          ∧ (dups.getD i emptyOpp).comment =
            ((default.getD {}).comment.getD ((opps.getD i emptyOpp).comment))
          ∧ (dups.getD i emptyOpp).state =
            ((default.getD {}).state.getD ((opps.getD i emptyOpp).state))
          ∧ (dups.getD i emptyOpp).probability =
            ((default.getD {}).probability.getD
              ((opps.getD i emptyOpp).probability))
          ∧ (dups.getD i emptyOpp).lost_reason =
            ((default.getD {}).lost_reason.getD
              ((opps.getD i emptyOpp).lost_reason)) := by
  obtain ⟨dups, h1, h2, h3⟩ := createMany_ok
    (opps.map (SaleOpportunity.applyDefaults
      (SaleOpportunity.setdefaults (default.getD {})))) seq
    (by
      intro u hu
      rcases List.mem_map.mp hu with ⟨o, ho, rfl⟩
      exact hv o ho)
  rw [List.length_map] at h1 h2 h3
  refine ⟨dups, seq + opps.length, ?_, h2, rfl, ?_⟩
  · show (match SaleOpportunity.createMany seq
        (opps.map (SaleOpportunity.applyDefaults
          (SaleOpportunity.setdefaults (default.getD {})))) with
      | Except.error e => Except.error e
      | Except.ok (dups2, seq2) => Except.ok (dups2, default, seq2)) =
      Except.ok (dups, default, seq + opps.length)
    rw [h1]
  · intro i hi
    have hd := h3 i hi
    rw [getD_map_of_lt _ opps i hi emptyOpp emptyOpp] at hd
    rw [hd]
    simp [SaleOpportunity.applyDefaults, SaleOpportunity.setdefaults]

/-- Witness for C10 (amended): copying one record with no caller defaults
succeeds and returns the caller's (absent) mapping unchanged. -/
theorem c10_copy_amended_witness :
    ∃ dups seq2, SaleOpportunity.copy [c10opp] Option.none 0 =
      Except.ok (dups, Option.none, seq2) := by
  obtain ⟨dups, seq2, h1, -⟩ := c10_copy_amended [c10opp] Option.none 0 (by decide)
  exact ⟨dups, seq2, h1⟩
